import Mathlib

/-!
Verification of the ShopToPlus customer-service backend core
(product resolver, response orchestrator, conversation state manager,
inbound webhook gateway) as a shallow embedding in Lean 4.

Modelling conventions, fixed once for the whole file:

* The data store client (supabase-js / PostgREST) delivers every failure,
  including network failure, through the `error` field of its resolved
  response; its query promises do not reject.  Store calls are therefore
  embedded as pure values carrying either data or an error marker
  (`Option`, or a Boolean error flag on the database state), never as
  thrown exceptions.  The language-model client (openai-js), by contrast,
  rejects its promise on failure; those calls are embedded in an `Except`
  error channel, and a TypeScript `try/catch` block becomes an explicit
  match on that channel.
* Confidence scores are decimal constants (0.95, 0.85, ...).  They are
  represented in exact hundredths (`95`, `85`, ...) so that every value is
  computable by kernel reduction; `100` stands for the score 1.0.
* SQL `col ILIKE '%q%'` is case-insensitive substring containment;
  TypeScript `String.prototype.includes` is case-sensitive containment.
  Both are implemented over the character list of the string.
-/

set_option autoImplicit false

namespace ShopToPlus

/-! ### String primitives -/

/-- Is `pat` a prefix of `l` (character-wise, Boolean)? -/
def isPrefixL : List Char → List Char → Bool
  | [], _ => true
  | _ :: _, [] => false
  | a :: as, b :: bs => a == b && isPrefixL as bs

/-- Does `needle` occur as a contiguous substring of `hay`? -/
def containsL (needle : List Char) : List Char → Bool
  | [] => needle.isEmpty
  | c :: rest => isPrefixL needle (c :: rest) || containsL needle rest

/-- TypeScript `hay.includes(needle)`: case-sensitive substring test. -/
def strIncludes (hay needle : String) : Bool :=
  containsL needle.data hay.data

/-- Lower-cased character list of a string (TypeScript `toLowerCase`,
ASCII letters only, which is an identity on the CJK characters used). -/
def lowerData (s : String) : List Char :=
  s.data.map Char.toLower

/-- SQL `col ILIKE '%pat%'`: case-insensitive substring containment. -/
def ilikeContains (col pat : String) : Bool :=
  containsL (pat.data.map Char.toLower) (col.data.map Char.toLower)

/-- Does `hay` contain any of the keywords `kws` (case-sensitive)? -/
def anyIncluded (hay : String) (kws : List String) : Bool :=
  kws.any (fun k => strIncludes hay k)

/-! ### Product resolver: data model (`src/services/productSearch.ts`) -/

/-- A catalog row of the `products` table (the columns the search logic
reads: code, the two localized names and the derived search text). -/
structure Product where
  product_code : String
  product_name_chinese : String
  product_name_english : Option String
  search_text : String
deriving Repr, DecidableEq

/-- Value stored in a column by an update.  `num` is an ordinary integer
counter value.  `rpcBuilder fn arg` is the value produced by passing an
un-awaited `supabase.rpc(fn, arg)` query-builder object as the update
payload, as `aliasSearch` does for `usage_count`: the builder is
serialized into the row instead of being executed, so the stored value is
not a number. -/
inductive ColumnVal where
  | num (n : Nat)
  | rpcBuilder (fn : String) (arg : String)
deriving Repr, DecidableEq

/-- A row of the `product_aliases` table. -/
structure AliasRow where
  alias_name : String
  product_code : String
  is_active : Bool
  usage_count : ColumnVal
deriving Repr, DecidableEq

/-- The store state and per-call outcome knobs seen by one
`searchProducts` run.  Boolean `...Err` fields model the corresponding
store call resolving with its `error` field set (the PostgREST client
reports network failure this way and does not throw).  `embedOk = false`
models the openai embeddings call rejecting (it does throw).
`matchRpc` and `ftsRes` are the responses of the two externally delegated
searches (`match_products` vector RPC and the websearch full-text query):
`none` means the response carried an error, `some rows` its data. -/
structure SearchDb where
  products : List Product
  aliases : List AliasRow
  exactErr : Bool
  aliasSelErr : Bool
  aliasProdErr : Bool
  aliasUpdErr : Bool
  embedOk : Bool
  matchRpc : Option (List Product)
  ftsRes : Option (List Product)
  ilikeStErr : Bool
  sampleErr : Bool
deriving Repr, DecidableEq

/-- The `searchMethod` tag of a search result. -/
inductive SearchMethod where
  | exact
  | alias
  | semantic
  | fuzzy
  | sample
  | none
deriving Repr, DecidableEq

/-- `ProductSearchResult` (confidence in hundredths: 95 is 0.95). -/
structure ProductSearchResult where
  products : List Product
  confidence : Nat
  searchMethod : SearchMethod
deriving Repr, DecidableEq

/-! ### Product resolver: the five search stages -/

/-- Row predicate of the exact-stage query: `product_code ILIKE '%q%'` or
either localized name `ILIKE '%q%'` (an ILIKE against a NULL column does
not match the row). -/
def exactPred (query : String) (p : Product) : Bool :=
  ilikeContains p.product_code query ||
  ilikeContains p.product_name_chinese query ||
  (match p.product_name_english with
   | some n => ilikeContains n query
   | Option.none => false)

/-- The rows answered by the exact-stage query (limited select). -/
def exactRows (db : SearchDb) (query : String) (limit : Nat) : List Product :=
  (db.products.filter (exactPred query)).take limit

/-- `exactSearch`: substring match on code and names, confidence 0.95 when
non-empty; a store error degrades to the empty result. -/
def exactSearch (db : SearchDb) (query : String) (limit : Nat) : ProductSearchResult :=
  if db.exactErr then ⟨[], 0, .exact⟩
  else ⟨exactRows db query limit,
        if (exactRows db query limit).isEmpty then 0 else 95, .exact⟩

/-- The aliases matched by the alias-stage select: active rows whose
`alias_name` contains the query (case-insensitively). -/
def aliasMatches (db : SearchDb) (query : String) : List AliasRow :=
  db.aliases.filter (fun a => a.is_active && ilikeContains a.alias_name query)

/-- One iteration of the usage-count update loop: an UPDATE of
`product_aliases` setting `usage_count` to the un-awaited
`supabase.rpc('increment', row_id := code)` builder object, filtered by
`product_code = code` (so it hits every row with that code, not the
matched alias row specifically). -/
def bumpUsage (aliases : List AliasRow) (code : String) : List AliasRow :=
  aliases.map (fun r =>
    if r.product_code == code then { r with usage_count := .rpcBuilder "increment" code } else r)

/-- The products fetched for the matched alias codes (limited select). -/
def aliasProducts (db : SearchDb) (query : String) (limit : Nat) : List Product :=
  (db.products.filter (fun p =>
    ((aliasMatches db query).map (fun a => a.product_code)).contains p.product_code)).take limit

/-- `aliasSearch`: find matching active aliases, fetch the products with
the aliased codes, run the usage-count update loop, and answer with
confidence 0.85.  Store errors on either select degrade to the empty
result; an error on the update is ignored by the source. -/
def aliasSearch (db : SearchDb) (query : String) (limit : Nat) :
    ProductSearchResult × SearchDb :=
  if db.aliasSelErr then (⟨[], 0, .alias⟩, db)
  else if (aliasMatches db query).isEmpty then (⟨[], 0, .alias⟩, db)
  else if db.aliasProdErr then (⟨[], 0, .alias⟩, db)
  else (⟨aliasProducts db query limit, 85, .alias⟩,
        if db.aliasUpdErr then db
        else { db with aliases :=
                (aliasMatches db query).foldl (fun al a => bumpUsage al a.product_code) db.aliases })

/-- The try-block of `semanticSearch`: the openai embeddings call (which
rejects on failure, hence the `Except` error), then the `match_products`
RPC (whose failure arrives in the error field, handled in place). -/
def semanticSearchBody (db : SearchDb) (_query : String) (_limit : Nat) :
    Except Unit ProductSearchResult :=
  if db.embedOk then
    match db.matchRpc with
    | Option.none => .ok ⟨[], 0, .semantic⟩
    | some data => .ok ⟨data, if data.isEmpty then 0 else 80, .semantic⟩
  else .error ()

/-- `semanticSearch`: the try-block with its own catch, which turns a
thrown embedding failure into the empty semantic result. -/
def semanticSearch (db : SearchDb) (query : String) (limit : Nat) : ProductSearchResult :=
  match semanticSearchBody db query limit with
  | .ok r => r
  | .error _ => ⟨[], 0, .semantic⟩

/-- The rows answered by the broader ILIKE query on `search_text`. -/
def fuzzyRows (db : SearchDb) (query : String) (limit : Nat) : List Product :=
  (db.products.filter (fun p => ilikeContains p.search_text query)).take limit

/-- The broader ILIKE fallback inside `fuzzySearch`: substring match on
the `search_text` column, confidence 0.5 when non-empty. -/
def fuzzyLike (db : SearchDb) (query : String) (limit : Nat) : ProductSearchResult :=
  if db.ilikeStErr then ⟨[], 0, .fuzzy⟩
  else ⟨fuzzyRows db query limit,
        if (fuzzyRows db query limit).isEmpty then 0 else 50, .fuzzy⟩

/-- `fuzzySearch`: delegated websearch full-text query first (confidence
0.6 when it succeeds with data), otherwise the ILIKE fallback. -/
def fuzzySearch (db : SearchDb) (query : String) (limit : Nat) : ProductSearchResult :=
  match db.ftsRes with
  | some data => if data.isEmpty then fuzzyLike db query limit else ⟨data, 60, .fuzzy⟩
  | Option.none => fuzzyLike db query limit

/-- `getSampleProducts`: up to `limit` arbitrary catalog rows, confidence
0.2 (overridden to 0.3 by the caller); a store error degrades to the
empty result with confidence 0. -/
def getSampleProducts (db : SearchDb) (limit : Nat) : ProductSearchResult :=
  if db.sampleErr then ⟨[], 0, .sample⟩
  else ⟨db.products.take limit, 20, .sample⟩

/-! ### Product resolver: the cascade (`searchProducts`)

The cascade is written as named tails so that failure-isolation facts can
be stated as equalities between a cascade and its continuation. -/

/-- Tail of the cascade from the sample stage: non-empty sample rows are
returned with confidence overridden to 0.3, otherwise the final empty
result with confidence 0 and method `none`. -/
def cascadeSample (db : SearchDb) (limit : Nat) : ProductSearchResult × SearchDb :=
  if (getSampleProducts db limit).products.isEmpty then (⟨[], 0, .none⟩, db)
  else ({ getSampleProducts db limit with confidence := 30 }, db)

/-- Tail of the cascade from the fuzzy stage. -/
def cascadeFuzzy (db : SearchDb) (query : String) (limit : Nat) :
    ProductSearchResult × SearchDb :=
  if (fuzzySearch db query limit).products.isEmpty then cascadeSample db limit
  else (fuzzySearch db query limit, db)

/-- Tail of the cascade from the semantic stage.  The call site wraps the
stage in its own try/catch; the only throwing call inside the stage is
already caught by the catch inside `semanticSearch`, so the stage value
is total here. -/
def cascadeSemantic (db : SearchDb) (query : String) (limit : Nat) :
    ProductSearchResult × SearchDb :=
  if (semanticSearch db query limit).products.isEmpty then cascadeFuzzy db query limit
  else (semanticSearch db query limit, db)

/-- Tail of the cascade from the alias stage.  The alias stage may update
alias usage counters even when its product list comes back empty, so the
updated store is threaded into the later stages. -/
def cascadeAlias (db : SearchDb) (query : String) (limit : Nat) :
    ProductSearchResult × SearchDb :=
  if (aliasSearch db query limit).1.products.isEmpty then
    cascadeSemantic (aliasSearch db query limit).2 query limit
  else aliasSearch db query limit

/-- `searchProducts`: the ordered cascade exact, alias, semantic, fuzzy,
sample, short-circuiting on the first non-empty result (`limit` defaults
to 10 at the TypeScript call sites). -/
def searchProducts (db : SearchDb) (query : String) (limit : Nat) :
    ProductSearchResult × SearchDb :=
  if (exactSearch db query limit).products.isEmpty then cascadeAlias db query limit
  else (exactSearch db query limit, db)

/-! ### Resolver: stage and cascade lemmas -/

theorem exactSearch_conf_of_ne (db : SearchDb) (q : String) (l : Nat)
    (h : (exactSearch db q l).products ≠ []) : (exactSearch db q l).confidence = 95 := by
  unfold exactSearch at h ⊢
  by_cases hE : db.exactErr = true
  · simp [hE] at h
  · simp only [hE, if_false] at h ⊢
    by_cases he : (exactRows db q l).isEmpty
    · simp_all [List.isEmpty_iff]
    · simp_all

theorem aliasSearch_conf_of_ne (db : SearchDb) (q : String) (l : Nat)
    (h : (aliasSearch db q l).1.products ≠ []) : (aliasSearch db q l).1.confidence = 85 := by
  unfold aliasSearch at h ⊢
  repeat' split at h
  all_goals simp_all

theorem semanticSearch_conf_of_ne (db : SearchDb) (q : String) (l : Nat)
    (h : (semanticSearch db q l).products ≠ []) : (semanticSearch db q l).confidence = 80 := by
  unfold semanticSearch at h ⊢
  cases hb : semanticSearchBody db q l with
  | error e => simp [hb] at h
  | ok r =>
    simp only [hb] at h ⊢
    unfold semanticSearchBody at hb
    by_cases hE : db.embedOk = true
    · simp only [hE, if_true] at hb
      cases hm : db.matchRpc with
      | none =>
        simp only [hm] at hb
        injection hb with hb
        rw [← hb] at h
        simp at h
      | some data =>
        simp only [hm] at hb
        injection hb with hb
        subst hb
        by_cases hd : data.isEmpty
        · simp_all [List.isEmpty_iff]
        · simp_all
    · simp [hE] at hb

theorem fuzzySearch_conf_of_ne (db : SearchDb) (q : String) (l : Nat)
    (h : (fuzzySearch db q l).products ≠ []) :
    (fuzzySearch db q l).confidence = 60 ∨ (fuzzySearch db q l).confidence = 50 := by
  unfold fuzzySearch fuzzyLike at h ⊢
  repeat' split at h
  all_goals simp_all [List.isEmpty_iff]

theorem searchProducts_of_exact_ne (db : SearchDb) (q : String) (l : Nat)
    (h : (exactSearch db q l).products ≠ []) :
    searchProducts db q l = (exactSearch db q l, db) := by
  unfold searchProducts
  simp [List.isEmpty_iff, h]

theorem searchProducts_of_exact_eq (db : SearchDb) (q : String) (l : Nat)
    (h : (exactSearch db q l).products = []) :
    searchProducts db q l = cascadeAlias db q l := by
  unfold searchProducts
  simp [List.isEmpty_iff, h]

theorem cascadeAlias_of_ne (db : SearchDb) (q : String) (l : Nat)
    (h : (aliasSearch db q l).1.products ≠ []) :
    cascadeAlias db q l = aliasSearch db q l := by
  unfold cascadeAlias
  simp [List.isEmpty_iff, h]

theorem cascadeAlias_of_eq (db : SearchDb) (q : String) (l : Nat)
    (h : (aliasSearch db q l).1.products = []) :
    cascadeAlias db q l = cascadeSemantic (aliasSearch db q l).2 q l := by
  unfold cascadeAlias
  simp [List.isEmpty_iff, h]

theorem cascadeSemantic_of_ne (db : SearchDb) (q : String) (l : Nat)
    (h : (semanticSearch db q l).products ≠ []) :
    cascadeSemantic db q l = (semanticSearch db q l, db) := by
  unfold cascadeSemantic
  simp [List.isEmpty_iff, h]

theorem cascadeSemantic_of_eq (db : SearchDb) (q : String) (l : Nat)
    (h : (semanticSearch db q l).products = []) :
    cascadeSemantic db q l = cascadeFuzzy db q l := by
  unfold cascadeSemantic
  simp [List.isEmpty_iff, h]

theorem cascadeFuzzy_of_ne (db : SearchDb) (q : String) (l : Nat)
    (h : (fuzzySearch db q l).products ≠ []) :
    cascadeFuzzy db q l = (fuzzySearch db q l, db) := by
  unfold cascadeFuzzy
  simp [List.isEmpty_iff, h]

theorem cascadeFuzzy_of_eq (db : SearchDb) (q : String) (l : Nat)
    (h : (fuzzySearch db q l).products = []) :
    cascadeFuzzy db q l = cascadeSample db l := by
  unfold cascadeFuzzy
  simp [List.isEmpty_iff, h]

theorem cascadeSample_of_ne (db : SearchDb) (l : Nat)
    (h : (getSampleProducts db l).products ≠ []) :
    cascadeSample db l = ({ getSampleProducts db l with confidence := 30 }, db) := by
  unfold cascadeSample
  simp [List.isEmpty_iff, h]

theorem cascadeSample_of_eq (db : SearchDb) (l : Nat)
    (h : (getSampleProducts db l).products = []) :
    cascadeSample db l = (⟨[], 0, .none⟩, db) := by
  unfold cascadeSample
  simp [List.isEmpty_iff, h]

/-- The alias stage touches only the aliases table: products and the
outcome knobs of the later stages are preserved. -/
theorem aliasSearch_snd_fields (db : SearchDb) (q : String) (l : Nat) :
    (aliasSearch db q l).2.products = db.products ∧
    (aliasSearch db q l).2.sampleErr = db.sampleErr := by
  unfold aliasSearch
  repeat' split
  all_goals simp

/-- Every result of the cascade is either empty with confidence 0 or
non-empty with one of the stage confidences. -/
theorem searchProducts_confidence_cases (db : SearchDb) (q : String) (l : Nat) :
    ((searchProducts db q l).1.products = [] ∧ (searchProducts db q l).1.confidence = 0) ∨
    ((searchProducts db q l).1.products ≠ [] ∧
      ((searchProducts db q l).1.confidence = 95 ∨ (searchProducts db q l).1.confidence = 85 ∨
       (searchProducts db q l).1.confidence = 80 ∨ (searchProducts db q l).1.confidence = 60 ∨
       (searchProducts db q l).1.confidence = 50 ∨ (searchProducts db q l).1.confidence = 30)) := by
  by_cases he : (exactSearch db q l).products = []
  case neg =>
    rw [searchProducts_of_exact_ne db q l he]
    exact Or.inr ⟨he, Or.inl (exactSearch_conf_of_ne db q l he)⟩
  case pos =>
  rw [searchProducts_of_exact_eq db q l he]
  by_cases ha : (aliasSearch db q l).1.products = []
  case neg =>
    rw [cascadeAlias_of_ne db q l ha]
    exact Or.inr ⟨ha, Or.inr (Or.inl (aliasSearch_conf_of_ne db q l ha))⟩
  case pos =>
  rw [cascadeAlias_of_eq db q l ha]
  set db1 := (aliasSearch db q l).2 with hdb1
  by_cases hs : (semanticSearch db1 q l).products = []
  case neg =>
    rw [cascadeSemantic_of_ne db1 q l hs]
    exact Or.inr ⟨hs, Or.inr (Or.inr (Or.inl (semanticSearch_conf_of_ne db1 q l hs)))⟩
  case pos =>
  rw [cascadeSemantic_of_eq db1 q l hs]
  by_cases hf : (fuzzySearch db1 q l).products = []
  case neg =>
    rw [cascadeFuzzy_of_ne db1 q l hf]
    rcases fuzzySearch_conf_of_ne db1 q l hf with h6 | h5
    · exact Or.inr ⟨hf, Or.inr (Or.inr (Or.inr (Or.inl h6)))⟩
    · exact Or.inr ⟨hf, Or.inr (Or.inr (Or.inr (Or.inr (Or.inl h5))))⟩
  case pos =>
  rw [cascadeFuzzy_of_eq db1 q l hf]
  by_cases hg : (getSampleProducts db1 l).products = []
  case neg =>
    rw [cascadeSample_of_ne db1 l hg]
    exact Or.inr ⟨hg, Or.inr (Or.inr (Or.inr (Or.inr (Or.inr rfl))))⟩
  case pos =>
  rw [cascadeSample_of_eq db1 l hg]
  exact Or.inl ⟨rfl, rfl⟩

/-! ### Resolver claims -/

/-- C10: for every store state, query and limit, the result of
`searchProducts` has a non-empty product list if and only if its
confidence is strictly positive, so confidence > 0 is an exact test for
"something was returned". -/
theorem searchProducts_nonempty_iff_confidence_pos (db : SearchDb) (q : String) (l : Nat) :
    (searchProducts db q l).1.products ≠ [] ↔ 0 < (searchProducts db q l).1.confidence := by
  rcases searchProducts_confidence_cases db q l with ⟨h1, h2⟩ | ⟨h1, h2⟩
  · constructor
    · intro h; exact absurd h1 h
    · intro h; rw [h2] at h; exact absurd h (lt_irrefl 0)
  · constructor
    · intro _
      rcases h2 with h | h | h | h | h | h <;> omega
    · intro _; exact h1

/-- C1: `searchProducts` always yields a well-formed result (confidence
at most 1.0, here 100 hundredths), and a store or network failure induced
inside any single stage degrades that stage to the empty result while the
rest of the cascade still runs: each failed stage evaluates to the empty
stage result and the cascade from that stage equals the cascade of the
remaining lower-confidence stages.  A thrown embedding failure
(`embedOk = false`) surfaces as the error channel of
`semanticSearchBody` and is caught inside the semantic stage. -/
theorem searchProducts_stage_failure_isolation (db : SearchDb) (q : String) (l : Nat) :
    (searchProducts db q l).1.confidence ≤ 100
  ∧ (db.exactErr = true →
      exactSearch db q l = ⟨[], 0, .exact⟩ ∧ searchProducts db q l = cascadeAlias db q l)
  ∧ (db.aliasSelErr = true ∨ db.aliasProdErr = true →
      aliasSearch db q l = (⟨[], 0, .alias⟩, db) ∧
      cascadeAlias db q l = cascadeSemantic db q l)
  ∧ (db.embedOk = false →
      semanticSearchBody db q l = .error () ∧
      semanticSearch db q l = ⟨[], 0, .semantic⟩ ∧
      cascadeSemantic db q l = cascadeFuzzy db q l)
  ∧ (db.matchRpc = Option.none →
      semanticSearch db q l = ⟨[], 0, .semantic⟩ ∧ cascadeSemantic db q l = cascadeFuzzy db q l)
  ∧ (db.ftsRes = Option.none ∧ db.ilikeStErr = true →
      fuzzySearch db q l = ⟨[], 0, .fuzzy⟩ ∧ cascadeFuzzy db q l = cascadeSample db l)
  ∧ (db.sampleErr = true →
      getSampleProducts db l = ⟨[], 0, .sample⟩ ∧ cascadeSample db l = (⟨[], 0, .none⟩, db)) := by
  refine ⟨?_, ?_, ?_, ?_, ?_, ?_, ?_⟩
  · rcases searchProducts_confidence_cases db q l with ⟨_, h⟩ | ⟨_, h⟩
    · omega
    · rcases h with h | h | h | h | h | h <;> omega
  · intro hE
    have he : exactSearch db q l = ⟨[], 0, .exact⟩ := by unfold exactSearch; simp [hE]
    exact ⟨he, searchProducts_of_exact_eq db q l (by rw [he])⟩
  · intro hA
    have ha : aliasSearch db q l = (⟨[], 0, .alias⟩, db) := by
      unfold aliasSearch
      rcases hA with h | h
      · simp [h]
      · simp [h]
    have := cascadeAlias_of_eq db q l (by rw [ha])
    rw [ha] at this
    exact ⟨ha, this⟩
  · intro hE
    have hb : semanticSearchBody db q l = .error () := by
      unfold semanticSearchBody; simp [hE]
    have hs : semanticSearch db q l = ⟨[], 0, .semantic⟩ := by
      unfold semanticSearch; rw [hb]
    exact ⟨hb, hs, cascadeSemantic_of_eq db q l (by rw [hs])⟩
  · intro hM
    have hs : semanticSearch db q l = ⟨[], 0, .semantic⟩ := by
      unfold semanticSearch semanticSearchBody
      rcases hB : db.embedOk with _ | _ <;> simp [hB, hM]
    exact ⟨hs, cascadeSemantic_of_eq db q l (by rw [hs])⟩
  · rintro ⟨hF, hI⟩
    have hf : fuzzySearch db q l = ⟨[], 0, .fuzzy⟩ := by
      unfold fuzzySearch fuzzyLike; simp [hF, hI]
    exact ⟨hf, cascadeFuzzy_of_eq db q l (by rw [hf])⟩
  · intro hS
    have hg : getSampleProducts db l = ⟨[], 0, .sample⟩ := by
      unfold getSampleProducts; simp [hS]
    exact ⟨hg, cascadeSample_of_eq db l (by rw [hg])⟩

/-- Demo rows used by the concrete evaluations below. -/
def pPain : Product := ⟨"P-1", "止痛藥", some "Pain Reliever", "p-1 pain reliever tablets"⟩

def aliasDemoRow : AliasRow := ⟨"panadol", "P-1", true, .num 0⟩

def allFailDb : SearchDb :=
  ⟨[pPain], [aliasDemoRow], true, true, true, true, false, Option.none, Option.none, true, true⟩

theorem searchProducts_stage_failure_isolation_witness :
    searchProducts allFailDb "x" 10 = (⟨[], 0, SearchMethod.none⟩, allFailDb) := by
  obtain ⟨-, h1, h2, h3, -, h5, h6⟩ := searchProducts_stage_failure_isolation allFailDb "x" 10
  calc searchProducts allFailDb "x" 10
      = cascadeAlias allFailDb "x" 10 := (h1 rfl).2
    _ = cascadeSemantic allFailDb "x" 10 := (h2 (Or.inl rfl)).2
    _ = cascadeFuzzy allFailDb "x" 10 := (h3 rfl).2.2
    _ = cascadeSample allFailDb 10 := (h5 ⟨rfl, rfl⟩).2
    _ = (⟨[], 0, SearchMethod.none⟩, allFailDb) := (h6 rfl).2

theorem take_ne_nil_of_ne_nil {α : Type} (xs : List α) (n : Nat) (hx : xs ≠ []) (hn : 0 < n) :
    xs.take n ≠ [] := by
  cases xs with
  | nil => exact absurd rfl hx
  | cons a as =>
    cases n with
    | zero => omega
    | succ m => simp

/-- C2: the cascade runs exact, alias, semantic, fuzzy, sample in this
fixed order and returns the first non-empty result, with confidence 0.95
for exact, 0.85 for alias, 0.8 for semantic, 0.6 for full-text fuzzy or
0.5 for its substring fallback; a query matching a product code is
answered by the exact stage with confidence 0.95 and contains that
product; and when all four matching strategies are empty on a non-empty
catalog, at most `limit` sample rows are returned with confidence
strictly between 0 and 0.5. -/
theorem searchProducts_cascade_order_and_confidences (db : SearchDb) (q : String) (l : Nat) :
    ((exactSearch db q l).products ≠ [] →
      searchProducts db q l = (exactSearch db q l, db) ∧ (exactSearch db q l).confidence = 95)
  ∧ ((exactSearch db q l).products = [] → (aliasSearch db q l).1.products ≠ [] →
      searchProducts db q l = aliasSearch db q l ∧ (aliasSearch db q l).1.confidence = 85)
  ∧ ((exactSearch db q l).products = [] → (aliasSearch db q l).1.products = [] →
      (semanticSearch (aliasSearch db q l).2 q l).products ≠ [] →
      searchProducts db q l = (semanticSearch (aliasSearch db q l).2 q l, (aliasSearch db q l).2)
      ∧ (semanticSearch (aliasSearch db q l).2 q l).confidence = 80)
  ∧ ((exactSearch db q l).products = [] → (aliasSearch db q l).1.products = [] →
      (semanticSearch (aliasSearch db q l).2 q l).products = [] →
      (fuzzySearch (aliasSearch db q l).2 q l).products ≠ [] →
      searchProducts db q l = (fuzzySearch (aliasSearch db q l).2 q l, (aliasSearch db q l).2)
      ∧ ((fuzzySearch (aliasSearch db q l).2 q l).confidence = 60 ∨
         (fuzzySearch (aliasSearch db q l).2 q l).confidence = 50))
  ∧ ((exactSearch db q l).products = [] → (aliasSearch db q l).1.products = [] →
      (semanticSearch (aliasSearch db q l).2 q l).products = [] →
      (fuzzySearch (aliasSearch db q l).2 q l).products = [] →
      db.products ≠ [] → db.sampleErr = false → 0 < l →
      searchProducts db q l =
        ({ getSampleProducts (aliasSearch db q l).2 l with confidence := 30 },
          (aliasSearch db q l).2)
      ∧ 0 < (searchProducts db q l).1.confidence ∧ (searchProducts db q l).1.confidence < 50
      ∧ (searchProducts db q l).1.products.length ≤ l)
  ∧ (∀ p, p ∈ db.products → ilikeContains p.product_code q = true → db.exactErr = false →
      (db.products.filter (exactPred q)).length ≤ l →
      (searchProducts db q l).1.searchMethod = .exact
      ∧ (searchProducts db q l).1.confidence = 95
      ∧ p ∈ (searchProducts db q l).1.products) := by
  refine ⟨?_, ?_, ?_, ?_, ?_, ?_⟩
  · intro he
    exact ⟨searchProducts_of_exact_ne db q l he, exactSearch_conf_of_ne db q l he⟩
  · intro he ha
    rw [searchProducts_of_exact_eq db q l he, cascadeAlias_of_ne db q l ha]
    exact ⟨rfl, aliasSearch_conf_of_ne db q l ha⟩
  · intro he ha hs
    rw [searchProducts_of_exact_eq db q l he, cascadeAlias_of_eq db q l ha,
      cascadeSemantic_of_ne _ q l hs]
    exact ⟨rfl, semanticSearch_conf_of_ne _ q l hs⟩
  · intro he ha hs hf
    rw [searchProducts_of_exact_eq db q l he, cascadeAlias_of_eq db q l ha,
      cascadeSemantic_of_eq _ q l hs, cascadeFuzzy_of_ne _ q l hf]
    exact ⟨rfl, fuzzySearch_conf_of_ne _ q l hf⟩
  · intro he ha hs hf hcat hserr hl
    obtain ⟨hprods, hse⟩ := aliasSearch_snd_fields db q l
    have hg : (getSampleProducts (aliasSearch db q l).2 l).products =
        (aliasSearch db q l).2.products.take l := by
      unfold getSampleProducts
      rw [hse, hserr]
      simp
    have hgne : (getSampleProducts (aliasSearch db q l).2 l).products ≠ [] := by
      rw [hg, hprods]
      exact take_ne_nil_of_ne_nil db.products l hcat hl
    have heq : searchProducts db q l =
        ({ getSampleProducts (aliasSearch db q l).2 l with confidence := 30 },
          (aliasSearch db q l).2) := by
      rw [searchProducts_of_exact_eq db q l he, cascadeAlias_of_eq db q l ha,
        cascadeSemantic_of_eq _ q l hs, cascadeFuzzy_of_eq _ q l hf,
        cascadeSample_of_ne _ l hgne]
    refine ⟨heq, ?_, ?_, ?_⟩
    · rw [heq]; simp
    · rw [heq]; simp
    · rw [heq]
      show (getSampleProducts (aliasSearch db q l).2 l).products.length ≤ l
      rw [hg]
      exact List.length_take_le l _
  · intro p hp hcode hErr hlen
    have hfp : p ∈ db.products.filter (exactPred q) := by
      refine List.mem_filter.2 ⟨hp, ?_⟩
      unfold exactPred
      simp [hcode]
    have hrows : exactRows db q l = db.products.filter (exactPred q) := by
      unfold exactRows
      exact List.take_of_length_le hlen
    have hmem : p ∈ (exactSearch db q l).products := by
      unfold exactSearch
      simp only [hErr, Bool.false_eq_true, if_false]
      rw [hrows]
      exact hfp
    have hne : (exactSearch db q l).products ≠ [] := List.ne_nil_of_mem hmem
    rw [searchProducts_of_exact_ne db q l hne]
    refine ⟨?_, exactSearch_conf_of_ne db q l hne, hmem⟩
    unfold exactSearch
    simp [hErr]

/-- Demo catalog for the exact-match evaluation. -/
def pAbc : Product := ⟨"ABC-100", "測試產品", some "Test Widget", "abc-100 test widget"⟩

def exactDemoDb : SearchDb :=
  ⟨[pAbc], [], false, false, false, false, true, some [], some [], false, false⟩

theorem searchProducts_cascade_order_and_confidences_witness :
    (searchProducts exactDemoDb "abc-100" 10).1.searchMethod = .exact
  ∧ (searchProducts exactDemoDb "abc-100" 10).1.confidence = 95
  ∧ pAbc ∈ (searchProducts exactDemoDb "abc-100" 10).1.products := by
  obtain ⟨-, -, -, -, -, hx⟩ :=
    searchProducts_cascade_order_and_confidences exactDemoDb "abc-100" 10
  exact hx pAbc (by decide) (by decide) (by decide) (by decide)

/-- Store with one product reachable only through an alias. -/
def aliasDemoDb : SearchDb :=
  ⟨[pPain], [aliasDemoRow], false, false, false, false, true, some [], some [], false, false⟩

/-- C9: a query matching only an active alias is answered via the alias
stage with confidence 0.85, but the usage counter of the matched alias is
not incremented by 1: the update stores the un-awaited rpc builder
payload instead of the incremented count (code bug; the source comment
says the loop updates the usage count). -/
theorem aliasSearch_usage_count_not_incremented :
    (searchProducts aliasDemoDb "panadol" 10).1 = ⟨[pPain], 85, .alias⟩
  ∧ (searchProducts aliasDemoDb "panadol" 10).2.aliases =
      [⟨"panadol", "P-1", true, .rpcBuilder "increment" "P-1"⟩]
  ∧ ((searchProducts aliasDemoDb "panadol" 10).2.aliases.all
      (fun r => r.usage_count != ColumnVal.num 1)) = true := by
  refine ⟨by decide, by decide, by decide⟩

/-! ### Response orchestrator: data model (`src/services/aiService.ts`) -/

/-- The two reply locales. -/
inductive Lang where
  | zh
  | en
deriving Repr, DecidableEq

/-- The customer fields the orchestrator reads (`metadata.language_preference`
is flattened into `language_preference`). -/
structure Customer where
  phone_number : String
  name : Option String
  conversation_state : String
  needs_human_support : Bool
  language_preference : Option Lang
deriving Repr, DecidableEq

/-- A persisted message as seen by the history builder. -/
structure ChatMsg where
  sender_type : String
  message_content : String
deriving Repr, DecidableEq

/-- `ConversationContext` (the `preferredLanguage` field starts unset and
is assigned by `processMessage` partway through the pipeline). -/
structure ConversationContext where
  customer : Customer
  recentMessages : List ChatMsg
  preferredLanguage : Option Lang
deriving Repr, DecidableEq

/-- Language detection: explicit marker, explicit request, stored
preference, then the character-ratio heuristic, defaulting to Chinese. -/
def detectLanguagePreference (message : String) (ctx : ConversationContext) : Lang :=
  if isPrefixL "[EN]".data message.data then .en
  else if isPrefixL "[ZH]".data message.data then .zh
  else if containsL "english".data (lowerData message) ||
          containsL "switch to english".data (lowerData message) ||
          lowerData message == "en".data then .en
  else if containsL "中文".data (lowerData message) ||
          containsL "繁體".data (lowerData message) ||
          lowerData message == "zh".data then .zh
  else
    match ctx.customer.language_preference with
    | some l => l
    | Option.none =>
      let asciiCount := (message.data.filter Char.isAlpha).length
      let chineseCount :=
        (message.data.filter (fun c => decide (19968 ≤ c.toNat ∧ c.toNat ≤ 40959))).length
      if 0 < asciiCount ∧ 0 < chineseCount then
        (if chineseCount * 2 < asciiCount then .en else .zh)
      else if 5 < asciiCount then .en
      else .zh

/-- Strip the five-character language hint, when present. -/
def cleanMessage (message : String) : String :=
  if isPrefixL "[EN] ".data message.data || isPrefixL "[ZH] ".data message.data then
    String.mk (message.data.drop 5)
  else message

/-! Intent classifier keyword lists (bilingual, matched on the
lower-cased message). -/

def productInquiryKeywords : List String :=
  ["產品", "商品", "價格", "價錢", "多少錢", "有沒有", "有無",
   "product", "item", "price", "how much", "cost", "do you have"]

def orderKeywords : List String :=
  ["訂購", "下單", "買", "要", "order", "purchase", "buy", "want to order"]

def deliveryKeywords : List String :=
  ["送貨", "運送", "配送", "幾時到", "何時到",
   "delivery", "shipping", "ship", "when will", "arrive"]

def orderStatusKeywords : List String :=
  ["訂單", "狀態", "進度", "order status", "track order", "my order"]

def complaintIntentKeywords : List String :=
  ["投訴", "問題", "錯誤", "不滿", "complaint", "problem", "issue", "wrong", "error"]

def humanSupportIntentKeywords : List String :=
  ["客服", "真人", "人工", "職員", "customer service", "speak to someone",
   "human", "agent", "representative"]

/-- The alternation of the quantity regular expression. -/
def qtyUnits : List String :=
  ["箱", "盒", "個", "件", "box", "boxes", "unit", "units", "piece", "pieces"]

/-- Does a quantity unit start at this position? -/
def qtyUnitAt (l : List Char) : Bool :=
  qtyUnits.any (fun u => isPrefixL u.data l)

/-- One-or-more digits, optional whitespace, then a unit word, anywhere in
the text (the quantity regular expression of the order intent). -/
def qtyPattern : List Char → Bool
  | [] => false
  | c :: rest =>
    (c.isDigit && qtyUnitAt ((rest.dropWhile Char.isDigit).dropWhile Char.isWhitespace)) ||
    qtyPattern rest

/-- Does the character list contain any of the keywords? -/
def anyIncludedL (hay : List Char) (kws : List String) : Bool :=
  kws.any (fun k => containsL k.data hay)

/-- Ordered keyword classification of the (lower-cased) message; the
first matching category wins. -/
def detectIntent (message : String) : String :=
  if anyIncludedL (lowerData message) productInquiryKeywords then "product_inquiry"
  else if anyIncludedL (lowerData message) orderKeywords ||
          qtyPattern (lowerData message) then "order"
  else if anyIncludedL (lowerData message) deliveryKeywords then "delivery_inquiry"
  else if anyIncludedL (lowerData message) orderStatusKeywords then "order_status"
  else if anyIncludedL (lowerData message) complaintIntentKeywords then "complaint"
  else if anyIncludedL (lowerData message) humanSupportIntentKeywords then "human_support_request"
  else "general_inquiry"

/-! Escalation keyword sets (matched case-sensitively on the raw
message, reply respectively). -/

def escalationSupportKeywords : List String := ["客服", "真人", "人工"]

def escalationComplaintKeywords : List String := ["投訴", "不滿", "差勁"]

def hedgingKeywords : List String := ["不確定", "無法回答", "聯絡客服"]

/-- The escalation decision: explicit support request, frustration, the
persisted flag, or hedging phrasing in the model reply. -/
def shouldEscalateToHuman (userMessage aiResponse : String) (ctx : ConversationContext) : Bool :=
  if anyIncluded userMessage escalationSupportKeywords then true
  else if anyIncluded userMessage escalationComplaintKeywords then true
  else if ctx.customer.needs_human_support then true
  else if anyIncluded aiResponse hedgingKeywords then true
  else false

/-- The confidence score in hundredths: base 0.5, +0.2 for a specific
intent, +0.2 when products were found, +0.1 for knowledge context, capped
at 1.0. -/
def calculateConfidence (intent : String) (productsFound : Nat) (knowledgeContext : String) : Nat :=
  min (50 + (if intent ≠ "general_inquiry" ∧ intent ≠ "error" then 20 else 0)
        + (if 0 < productsFound then 20 else 0)
        + (if 0 < knowledgeContext.length then 10 else 0)) 100

/-- The last ten persisted messages mapped to chat roles (customer and
ai messages only), as fed to the completion call. -/
def buildConversationHistory (ctx : ConversationContext) : List (String × String) :=
  ((ctx.recentMessages.drop (ctx.recentMessages.length - 10)).filterMap fun m =>
    if m.sender_type == "customer" then some ("user", m.message_content)
    else if m.sender_type == "ai" then some ("assistant", m.message_content)
    else Option.none)

/-- `AIResponse`; `productSearchStatus` is the field of the same name of
the success metadata (`Option.none` for the catch-path response, which
carries no metadata). -/
structure AIResponse where
  response : String
  confidence : Nat
  intent : String
  requiresHuman : Bool
  suggestedProducts : Option (List Product)
  productSearchStatus : Option String
deriving Repr, DecidableEq

/-- Outcomes of the external calls of one `processMessage` run.
`updLangOk = false` models the language-preference persistence call
throwing (in the current sources there is no
`ConversationManager.updateLanguagePreference` method, so at runtime the
call throws a TypeError whenever it is reached; the knob keeps the
outcome general).  `search = Option.none` models the product resolver
throwing, `completion = Option.none` the chat-completion call throwing,
`completion = some c` its reply with content `c` (`c = Option.none` is a
null content).  `kbContext` is the knowledge-base context block, whose
builder catches its own failures and is total. -/
structure AiEnv where
  updLangOk : Bool
  search : Option (List Product)
  kbContext : String
  completion : Option (Option String)
deriving Repr, DecidableEq

/-- Localized fixed texts of the orchestrator. -/
def zhApology : String := "抱歉，系統出現錯誤。請稍後再試或聯絡客服人員。"

def enApology : String :=
  "Sorry, a system error occurred. Please try again later or contact customer service."

def zhDefaultReply : String := "抱歉，我現在無法回答。請稍後再試。"

def enDefaultReply : String :=
  "Sorry, I am unable to respond at the moment. Please try again later."

/-- The try-block of `processMessage`.  An error carries the value the
mutable `context.preferredLanguage` field holds at the moment of the
throw (the catch block localizes the apology with it): the original
value for a throw during language persistence, the detected language
afterwards.  The product-search call has its own catch, which turns a
resolver failure into the `search_failed` status rather than a throw. -/
def processBody (env : AiEnv) (message : String) (ctx : ConversationContext) :
    Except (Option Lang) AIResponse :=
  if ctx.customer.language_preference ≠ some (detectLanguagePreference message ctx) ∧
      env.updLangOk = false then
    .error ctx.preferredLanguage
  else
    let intent := detectIntent (cleanMessage message)
    let searchOutcome : List Product × String :=
      if intent == "product_inquiry" || intent == "order" then
        match env.search with
        | some prods => (prods, if prods.isEmpty then "none_found" else "found")
        | Option.none => ([], "search_failed")
      else ([], "not_attempted")
    match env.completion with
    | Option.none => .error (some (detectLanguagePreference message ctx))
    | some content =>
      let defaultResponse :=
        if detectLanguagePreference message ctx = Lang.en then enDefaultReply else zhDefaultReply
      let responseText :=
        match content with
        | some s => if s.isEmpty then defaultResponse else s
        | Option.none => defaultResponse
      .ok { response := responseText,
            confidence := calculateConfidence intent searchOutcome.1.length env.kbContext,
            intent := intent,
            requiresHuman := shouldEscalateToHuman (cleanMessage message) responseText ctx,
            suggestedProducts :=
              if searchOutcome.1.isEmpty then Option.none else some searchOutcome.1,
            productSearchStatus := some searchOutcome.2 }

/-- `processMessage`: the try-block and its top-level catch, which maps
any failure to the fixed localized apology response. -/
def processMessage (env : AiEnv) (message : String) (ctx : ConversationContext) : AIResponse :=
  match processBody env message ctx with
  | .ok r => r
  | .error langAtCatch =>
    { response := if langAtCatch = some Lang.en then enApology else zhApology,
      confidence := 0, intent := "error", requiresHuman := true,
      suggestedProducts := Option.none, productSearchStatus := Option.none }

/-! ### Orchestrator claims -/

/-- C3: any failure inside the pipeline is caught and mapped to the
fixed localized apology response with confidence 0, intent error and
requiresHuman true, and a successful pipeline result is returned as is;
`processMessage` is total and never propagates an exception. -/
theorem processMessage_error_handling (env : AiEnv) (message : String) (ctx : ConversationContext) :
    (∀ l, processBody env message ctx = .error l →
      processMessage env message ctx =
        { response := if l = some Lang.en then enApology else zhApology,
          confidence := 0, intent := "error", requiresHuman := true,
          suggestedProducts := Option.none, productSearchStatus := Option.none })
  ∧ (∀ l, processBody env message ctx = .error l →
      (processMessage env message ctx).response = zhApology ∨
      (processMessage env message ctx).response = enApology)
  ∧ (∀ r, processBody env message ctx = .ok r → processMessage env message ctx = r) := by
  refine ⟨?_, ?_, ?_⟩
  · intro l h
    unfold processMessage
    rw [h]
  · intro l h
    unfold processMessage
    rw [h]
    by_cases hl : l = some Lang.en
    · right; simp [hl]
    · left; simp [hl]
  · intro r h
    unfold processMessage
    rw [h]

/-- A context with no stored language preference and no escalation flag. -/
def ctxPlain : ConversationContext :=
  ⟨⟨"85200000000", Option.none, "greeting", false, Option.none⟩, [], Option.none⟩

/-- An environment whose language-persistence call throws. -/
def envUpdFail : AiEnv := ⟨false, some [], "", some (some "OK")⟩

theorem processMessage_error_handling_witness :
    processMessage envUpdFail "hi" ctxPlain =
      { response := zhApology, confidence := 0, intent := "error", requiresHuman := true,
        suggestedProducts := Option.none, productSearchStatus := Option.none } := by
  have h := (processMessage_error_handling envUpdFail "hi" ctxPlain).1 Option.none (by rfl)
  simpa using h

/-- C4: the confidence score equals base 0.5 plus 0.2 for a specific
intent, plus 0.2 when products were found, plus 0.1 for non-empty
knowledge context (in hundredths), never exceeds 1.0, and is monotone in
intent specificity, products found and knowledge found. -/
theorem calculateConfidence_spec (intent : String) (n : Nat) (k : String) :
    calculateConfidence intent n k
      = 50 + (if intent ≠ "general_inquiry" ∧ intent ≠ "error" then 20 else 0)
          + (if 0 < n then 20 else 0) + (if 0 < k.length then 10 else 0)
  ∧ calculateConfidence intent n k ≤ 100
  ∧ (∀ (intent' : String) (n' : Nat) (k' : String),
      ((intent ≠ "general_inquiry" ∧ intent ≠ "error") →
        (intent' ≠ "general_inquiry" ∧ intent' ≠ "error")) →
      (0 < n → 0 < n') → (0 < k.length → 0 < k'.length) →
      calculateConfidence intent n k ≤ calculateConfidence intent' n' k') := by
  refine ⟨?_, ?_, ?_⟩
  · unfold calculateConfidence
    repeat' split
    all_goals omega
  · unfold calculateConfidence
    repeat' split
    all_goals omega
  · intro intent' n' k' h1 h2 h3
    unfold calculateConfidence
    have e1 : (if intent ≠ "general_inquiry" ∧ intent ≠ "error" then (20:Nat) else 0)
        ≤ (if intent' ≠ "general_inquiry" ∧ intent' ≠ "error" then (20:Nat) else 0) := by
      by_cases hA : intent ≠ "general_inquiry" ∧ intent ≠ "error"
      · simp [hA, h1 hA]
      · simp only [hA, if_false]
        omega
    have e2 : (if 0 < n then (20:Nat) else 0) ≤ (if 0 < n' then (20:Nat) else 0) := by
      by_cases hA : 0 < n
      · simp [hA, h2 hA]
      · simp only [hA, if_false]
        omega
    have e3 : (if 0 < k.length then (10:Nat) else 0) ≤ (if 0 < k'.length then (10:Nat) else 0) := by
      by_cases hA : 0 < k.length
      · simp [hA, h3 hA]
      · simp only [hA, if_false]
        omega
    omega

theorem calculateConfidence_spec_witness :
    calculateConfidence "general_inquiry" 0 "" ≤ calculateConfidence "order" 2 "faq" ∧
    calculateConfidence "order" 2 "faq" = 100 := by
  have h := (calculateConfidence_spec "general_inquiry" 0 "" ).2.2 "order" 2 "faq"
    (by intro hc; exact absurd rfl hc.1) (by omega) (by simp)
  refine ⟨h, ?_⟩
  have h2 := (calculateConfidence_spec "order" 2 "faq").1
  rw [h2]
  rfl

/-- C5 counterexample: a message containing the classifier's configured
human-support keyword 'human' is classified as a human-support request,
yet the escalation flag stays false when neither the persisted flag nor
a hedging reply is present: the escalation keyword sets are not the
classifier's sets. -/
theorem escalation_misses_classifier_keywords :
    detectIntent "please connect me to a human" = "human_support_request"
  ∧ strIncludes "please connect me to a human" "human" = true
  ∧ anyIncludedL (lowerData "please connect me to a human") humanSupportIntentKeywords = true
  ∧ shouldEscalateToHuman "please connect me to a human" "OK" ctxPlain = false := by
  refine ⟨by decide, by decide, by decide, by decide⟩

/-- C5 (amended): the escalation flag is the disjunction of the four
triggers with the fixed keyword sets 客服/真人/人工 and 投訴/不滿/差勁
(not the classifier's bilingual sets), the persisted flag, and hedging
phrasing in the reply; a support or complaint keyword in the message
forces escalation regardless of the model output. -/
theorem shouldEscalateToHuman_or_of_triggers (msg reply : String) (ctx : ConversationContext) :
    shouldEscalateToHuman msg reply ctx
      = (anyIncluded msg escalationSupportKeywords || anyIncluded msg escalationComplaintKeywords
          || ctx.customer.needs_human_support || anyIncluded reply hedgingKeywords)
  ∧ ((anyIncluded msg escalationSupportKeywords = true ∨
      anyIncluded msg escalationComplaintKeywords = true) →
      shouldEscalateToHuman msg reply ctx = true) := by
  have hb : shouldEscalateToHuman msg reply ctx
      = (anyIncluded msg escalationSupportKeywords || anyIncluded msg escalationComplaintKeywords
          || ctx.customer.needs_human_support || anyIncluded reply hedgingKeywords) := by
    unfold shouldEscalateToHuman
    repeat' split
    all_goals simp_all
  refine ⟨hb, ?_⟩
  intro h
  rw [hb]
  rcases h with h | h <;> simp [h]

theorem shouldEscalateToHuman_or_of_triggers_witness :
    shouldEscalateToHuman "我要投訴" "OK" ctxPlain = true :=
  (shouldEscalateToHuman_or_of_triggers "我要投訴" "OK" ctxPlain).2 (Or.inr (by decide))

/-! ### Conversation state manager (`src/services/conversationManager.ts`) -/

/-- A row of the `session_protection` table (the time-boxed advisory
lock; times in milliseconds). -/
structure LockRow where
  phone_number : String
  session_id : String
  start_time : Nat
  last_activity : Nat
  current_stage : String
  message_count : Nat
  is_locked : Bool
  locked_until : Nat
  reason : String
deriving Repr, DecidableEq

/-- The UPDATE setting `is_locked = false` on every row of the identity
(used both by the lazy clear inside `checkSessionProtection` and by
`releaseSessionProtection`). -/
def unlockRows (tbl : List LockRow) (phone : String) : List LockRow :=
  tbl.map (fun r => if r.phone_number == phone then { r with is_locked := false } else r)

/-- The `.single()` select of `checkSessionProtection`: its data is a row
exactly when one row matches `phone_number = phone` and `is_locked`;
zero or several matches leave the data null (the source only tests the
data and ignores the error). -/
def lockSingle (tbl : List LockRow) (phone : String) : Option LockRow :=
  match tbl.filter (fun r => r.phone_number == phone && r.is_locked) with
  | [r] => some r
  | _ => Option.none

/-- `checkSessionProtection`: no locked row means not protected; an
expired locked row is cleared lazily and reported not protected; an
unexpired one is reported protected. -/
def checkSessionProtection (tbl : List LockRow) (phone : String) (now : Nat) :
    Bool × List LockRow :=
  match lockSingle tbl phone with
  | Option.none => (false, tbl)
  | some r =>
    if r.locked_until < now then (false, unlockRows tbl phone)
    else (true, tbl)

/-- The row written by `createSessionProtection` (default lock duration
30000 ms at the TypeScript call sites). -/
def lockRowFor (phone sessionId : String) (now lockDuration : Nat) : LockRow :=
  ⟨phone, sessionId, now, now, "processing", 1, true, now + lockDuration,
   "Message processing in progress"⟩

/-- `createSessionProtection`: an upsert keyed on the identity — replace
the row(s) of this phone number, inserting when absent. -/
def createSessionProtection (tbl : List LockRow) (phone sessionId : String)
    (now lockDuration : Nat) : List LockRow :=
  if tbl.any (fun r => r.phone_number == phone) then
    tbl.map (fun r => if r.phone_number == phone then lockRowFor phone sessionId now lockDuration else r)
  else tbl ++ [lockRowFor phone sessionId now lockDuration]

/-- `releaseSessionProtection`: set `is_locked = false` for the identity. -/
def releaseSessionProtection (tbl : List LockRow) (phone : String) : List LockRow :=
  unlockRows tbl phone

theorem unlockRows_unlocks (tbl : List LockRow) (phone : String) :
    ∀ r ∈ unlockRows tbl phone, r.phone_number = phone → r.is_locked = false := by
  intro r hr hph
  rcases List.mem_map.1 hr with ⟨x, hx, hmap⟩
  by_cases hxp : x.phone_number == phone
  · rw [← hmap]
    simp [hxp]
  · rw [← hmap] at hph
    simp [hxp] at hph
    exact absurd hph (by simpa using hxp)

theorem filter_locked_map_replace (phone : String) (row : LockRow)
    (h1 : row.phone_number = phone) (h2 : row.is_locked = true) :
    ∀ tbl : List LockRow,
      ((tbl.map (fun r => if r.phone_number == phone then row else r)).filter
          (fun r => r.phone_number == phone && r.is_locked))
        = List.replicate (tbl.filter (fun r => r.phone_number == phone)).length row := by
  intro tbl
  induction tbl with
  | nil => rfl
  | cons a t ih =>
    by_cases ha : a.phone_number = phone
    · simp [List.filter_cons, ha, h1, h2, List.replicate_succ]
      simpa using ih
    · simp [List.filter_cons, ha]
      simpa using ih

theorem lockSingle_create (tbl : List LockRow) (phone sessionId : String)
    (now lockDuration : Nat)
    (huniq : (tbl.filter (fun r => r.phone_number == phone)).length ≤ 1) :
    lockSingle (createSessionProtection tbl phone sessionId now lockDuration) phone
      = some (lockRowFor phone sessionId now lockDuration) := by
  unfold lockSingle createSessionProtection
  by_cases hany : (tbl.any (fun r => r.phone_number == phone)) = true
  · simp only [hany, if_true]
    rw [filter_locked_map_replace phone _ rfl rfl tbl]
    rcases List.any_eq_true.1 hany with ⟨x, hx, hxp⟩
    have hmem : x ∈ tbl.filter (fun r => r.phone_number == phone) :=
      List.mem_filter.2 ⟨hx, hxp⟩
    cases hf : tbl.filter (fun r => r.phone_number == phone) with
    | nil => rw [hf] at hmem; exact absurd hmem (List.not_mem_nil x)
    | cons r0 t0 =>
      cases t0 with
      | nil => rfl
      | cons r1 t1 =>
        rw [hf] at huniq
        simp at huniq
  · have hany' : (tbl.any (fun r => r.phone_number == phone)) = false := by simpa using hany
    simp only [hany', Bool.false_eq_true, if_false]
    rw [List.filter_append]
    have hnil : tbl.filter (fun r => r.phone_number == phone && r.is_locked) = [] := by
      rw [List.filter_eq_nil_iff]
      intro a ha
      simp only [Bool.and_eq_true]
      intro hc
      have : tbl.any (fun r => r.phone_number == phone) = true :=
        List.any_eq_true.2 ⟨a, ha, hc.1⟩
      rw [this] at hany'
      cases hany'
    rw [hnil]
    have hfa : List.filter (fun r => r.phone_number == phone && r.is_locked)
        [lockRowFor phone sessionId now lockDuration]
        = [lockRowFor phone sessionId now lockDuration] := by
      simp [lockRowFor]
    rw [hfa, List.nil_append]

/-- C6: after `createSessionProtection` acquires the lock, a check at or
before the expiry timestamp reports locked, and a check after the expiry
timestamp reports not locked even without a release, clearing the
expired row (is_locked set to false) as a side effect.  The hypothesis
is the table key invariant: at most one `session_protection` row per
identity. -/
theorem sessionProtection_lock_expiry (tbl : List LockRow) (phone sessionId : String)
    (now dur t1 t2 : Nat)
    (huniq : (tbl.filter (fun r => r.phone_number == phone)).length ≤ 1) :
    (t1 ≤ now + dur →
      checkSessionProtection (createSessionProtection tbl phone sessionId now dur) phone t1
        = (true, createSessionProtection tbl phone sessionId now dur))
  ∧ (now + dur < t2 →
      (checkSessionProtection (createSessionProtection tbl phone sessionId now dur) phone t2).1
          = false
      ∧ ∀ r ∈ (checkSessionProtection (createSessionProtection tbl phone sessionId now dur)
            phone t2).2, r.phone_number = phone → r.is_locked = false) := by
  have hsingle := lockSingle_create tbl phone sessionId now dur huniq
  constructor
  · intro ht1
    unfold checkSessionProtection
    rw [hsingle]
    have hlt : ¬((lockRowFor phone sessionId now dur).locked_until < t1) := by
      show ¬(now + dur < t1)
      omega
    dsimp only
    rw [if_neg hlt]
  · intro ht2
    unfold checkSessionProtection
    rw [hsingle]
    have hlt : (lockRowFor phone sessionId now dur).locked_until < t2 := by
      show now + dur < t2
      omega
    dsimp only
    rw [if_pos hlt]
    exact ⟨rfl, unlockRows_unlocks _ phone⟩

theorem sessionProtection_lock_expiry_witness :
    (checkSessionProtection (createSessionProtection [] "85200000000" "m1" 1000 30000)
        "85200000000" 31000).1 = true
  ∧ (checkSessionProtection (createSessionProtection [] "85200000000" "m1" 1000 30000)
        "85200000000" 31001).1 = false := by
  have h := sessionProtection_lock_expiry [] "85200000000" "m1" 1000 30000 31000 31001
    (by decide)
  exact ⟨by rw [h.1 (by omega)], (h.2 (by omega)).1⟩

/-! ### Conversation state manager: customer, session and message
persistence -/

/-- A row of the `conversation_sessions` table (the counter fields the
manager touches). -/
structure SessionRow where
  id : String
  phone_number : String
  total_messages : Nat
  ai_messages : Nat
  human_messages : Nat
  resolution_status : String
deriving Repr, DecidableEq

/-- A row of the `messages` table. -/
structure MessageRow where
  phone_number : String
  message_content : String
  direction : String
  sender_type : String
deriving Repr, DecidableEq

/-- Store responses seen by one run of the manager operations: each
`.single()`-terminated call resolves with data (`some`) or with a null
data and an error (`Option.none`); the PostgREST client does not
throw. -/
structure CmDb where
  fetchCustomer : Option Customer
  insertCustomer : Option Customer
  fetchSession : Option SessionRow
  insertSession : Option SessionRow
  insertIncoming : Option MessageRow
  insertOutgoing : Option MessageRow
  countSession : Option SessionRow
deriving Repr, DecidableEq

/-- `getOrCreateCustomer`: return the fetched row (updating
`last_active`, error ignored), otherwise insert; a failed insert throws
`Failed to create customer`. -/
def getOrCreateCustomer (db : CmDb) (_phoneNumber : String) (_name : Option String) :
    Except String Customer :=
  match db.fetchCustomer with
  | some c => .ok c
  | Option.none =>
    match db.insertCustomer with
    | some c => .ok c
    | Option.none => .error "Failed to create customer"

/-- `getOrCreateSession`: return the ongoing session of the last 24
hours, otherwise insert a fresh one; a failed insert throws. -/
def getOrCreateSession (db : CmDb) (_customer : Customer) : Except String SessionRow :=
  match db.fetchSession with
  | some s => .ok s
  | Option.none =>
    match db.insertSession with
    | some s => .ok s
    | Option.none => .error "Failed to create session"

/-- `incrementSessionMessageCount`: fetch the ongoing session (silently
returning when absent) and bump its counters (customer messages land in
`human_messages`, as in the source); the update error is ignored. -/
def incrementSessionMessageCount (db : CmDb) (senderType : String) : Option SessionRow :=
  match db.countSession with
  | Option.none => Option.none
  | some s =>
    some { s with
      total_messages := s.total_messages + 1,
      human_messages := if senderType == "customer" then s.human_messages + 1 else s.human_messages,
      ai_messages := if senderType == "ai" then s.ai_messages + 1 else s.ai_messages }

/-- `saveIncomingMessage`: insert the message row, throwing on an insert
failure, then bump the session counters (that part never throws). -/
def saveIncomingMessage (db : CmDb) (_customer : Customer) (_content : String) :
    Except String MessageRow :=
  match db.insertIncoming with
  | some m => .ok m
  | Option.none => .error "Failed to save message"

/-- `saveOutgoingMessage`: insert the outbound message row, throwing on
an insert failure, then bump the session counters. -/
def saveOutgoingMessage (db : CmDb) (_customer : Customer) (_content : String) :
    Except String MessageRow :=
  match db.insertOutgoing with
  | some m => .ok m
  | Option.none => .error "Failed to save outgoing message"

/-- A plain customer row. -/
def custPlain : Customer := ⟨"85200000000", Option.none, "greeting", false, Option.none⟩

/-- A store whose every call fails. -/
def cmDbAllFail : CmDb :=
  ⟨Option.none, Option.none, Option.none, Option.none, Option.none, Option.none, Option.none⟩

/-- C8 counterexample: when the store fails, each of the four lifecycle
operations throws an error instead of degrading to a neutral result, so
external-dependency failures do propagate past this component boundary. -/
theorem conversationManager_throws_on_store_failure :
    getOrCreateCustomer cmDbAllFail "85200000000" Option.none
      = .error "Failed to create customer"
  ∧ getOrCreateSession cmDbAllFail custPlain = .error "Failed to create session"
  ∧ saveIncomingMessage cmDbAllFail custPlain "hello" = .error "Failed to save message"
  ∧ saveOutgoingMessage cmDbAllFail custPlain "reply"
      = .error "Failed to save outgoing message" :=
  ⟨rfl, rfl, rfl, rfl⟩

/-- C8 (amended): the four lifecycle operations throw exactly when the
store insert fails (for the get-or-create pair, only when the lookup
also came back empty or failed); otherwise they return the stored row. -/
theorem conversationManager_error_propagation (db : CmDb) (phone : String)
    (name : Option String) (c : Customer) (content : String) :
    ((∃ e, getOrCreateCustomer db phone name = .error e) ↔
      db.fetchCustomer = Option.none ∧ db.insertCustomer = Option.none)
  ∧ ((∃ e, getOrCreateSession db c = .error e) ↔
      db.fetchSession = Option.none ∧ db.insertSession = Option.none)
  ∧ ((∃ e, saveIncomingMessage db c content = .error e) ↔ db.insertIncoming = Option.none)
  ∧ ((∃ e, saveOutgoingMessage db c content = .error e) ↔ db.insertOutgoing = Option.none) := by
  refine ⟨?_, ?_, ?_, ?_⟩
  · cases hf : db.fetchCustomer <;> cases hi : db.insertCustomer <;>
      simp [getOrCreateCustomer, hf, hi]
  · cases hf : db.fetchSession <;> cases hi : db.insertSession <;>
      simp [getOrCreateSession, hf, hi]
  · cases hf : db.insertIncoming <;> simp [saveIncomingMessage, hf]
  · cases hf : db.insertOutgoing <;> simp [saveOutgoingMessage, hf]

/-! ### Inbound gateway (`WebhookController.handleWebhook`) -/

/-- The parsed webhook payload. -/
structure ParsedMessage where
  phoneNumber : String
  message : String
  messageId : String
  messageType : String
deriving Repr, DecidableEq

/-- Outcomes of the steps of one `handleWebhook` run.  `parsed` is the
payload parse result; the Boolean step fields are false when the step
throws; `Option` step fields are `Option.none` when the step throws.
The two `logWebhookEvent` calls catch their own failures and only write
a log table, so they carry no outcome. -/
structure WebhookEnv where
  parsed : Option ParsedMessage
  markAsRead : Bool
  getCustomer : Option Customer
  saveIncoming : Bool
  buildCtx : Option ConversationContext
  aiResp : Option AIResponse
  saveOutgoing : Bool
  sendText : Bool
  escalate : Bool
  sendEscalationText : Bool
  updateState : Bool
deriving Repr, DecidableEq

/-- A throwing or succeeding unit step. -/
def stepB (ok : Bool) : Except Unit Unit :=
  if ok then .ok () else .error ()

/-- A throwing or value-returning step. -/
def stepO {α : Type} (o : Option α) : Except Unit α :=
  match o with
  | some a => .ok a
  | Option.none => .error ()

/-- The body of the inner try block: mark read, load or create the
customer, persist the inbound message, build the context, run the
orchestrator, persist and send the reply, then escalate and update the
customer state conditionally.  The first throwing step aborts the rest. -/
def processSteps (env : WebhookEnv) : Except Unit Unit := do
  let _ ← stepB env.markAsRead
  let _customer ← stepO env.getCustomer
  let _ ← stepB env.saveIncoming
  let _ctx ← stepO env.buildCtx
  let aiResponse ← stepO env.aiResp
  let _ ← stepB env.saveOutgoing
  let _ ← stepB env.sendText
  if aiResponse.requiresHuman then
    let _ ← stepB env.escalate
    let _ ← stepB env.sendEscalationText
  if aiResponse.intent ≠ "" then
    let _ ← stepB env.updateState
  pure ()

/-- `handleWebhook`, restricted to its effect on the lock table: no
valid message or a protected session skips processing; otherwise the
lock is acquired, the inner try block runs (its outcome does not touch
the lock), and the finally block releases the lock whether the body
returned or threw; the outer catch only logs. -/
def handleWebhook (env : WebhookEnv) (tbl : List LockRow) (now : Nat) : List LockRow :=
  match env.parsed with
  | Option.none => tbl
  | some pm =>
    if (checkSessionProtection tbl pm.phoneNumber now).1 then
      (checkSessionProtection tbl pm.phoneNumber now).2
    else
      let _outcome := processSteps env
      releaseSessionProtection
        (createSessionProtection (checkSessionProtection tbl pm.phoneNumber now).2
          pm.phoneNumber pm.messageId now 30000)
        pm.phoneNumber

/-- C7: whenever a webhook event passes the protection check and
acquires the session lock, the final lock-table state is the released
one, for every combination of step outcomes — including runs where a
processing step throws; every surviving row of the identity is
unlocked. -/
theorem handleWebhook_releases_lock (env : WebhookEnv) (tbl : List LockRow) (now : Nat) :
    ∀ pm, env.parsed = some pm →
      (checkSessionProtection tbl pm.phoneNumber now).1 = false →
      handleWebhook env tbl now =
        releaseSessionProtection
          (createSessionProtection (checkSessionProtection tbl pm.phoneNumber now).2
            pm.phoneNumber pm.messageId now 30000) pm.phoneNumber
      ∧ ∀ r ∈ handleWebhook env tbl now, r.phone_number = pm.phoneNumber →
          r.is_locked = false := by
  intro pm hp hnp
  have heq : handleWebhook env tbl now =
      releaseSessionProtection
        (createSessionProtection (checkSessionProtection tbl pm.phoneNumber now).2
          pm.phoneNumber pm.messageId now 30000) pm.phoneNumber := by
    unfold handleWebhook
    rw [hp]
    dsimp only
    rw [hnp]
    simp
  refine ⟨heq, ?_⟩
  rw [heq]
  exact unlockRows_unlocks _ pm.phoneNumber

/-- A run whose customer-creation step throws. -/
def envWhFail : WebhookEnv :=
  ⟨some ⟨"85200000000", "hello", "m1", "text"⟩, true, Option.none, true, Option.none,
   Option.none, true, true, true, true, true⟩

theorem handleWebhook_releases_lock_witness :
    processSteps envWhFail = .error ()
  ∧ ((handleWebhook envWhFail [] 500).all (fun r => !r.is_locked)) = true := by
  have h := handleWebhook_releases_lock envWhFail [] 500
    ⟨"85200000000", "hello", "m1", "text"⟩ rfl (by decide)
  refine ⟨rfl, ?_⟩
  rw [h.1]
  decide

end ShopToPlus
